import Mathlib

/-!
Shallow embedding of `src/wasm-nes-emulator/src/cpu.rs` (a MOS 6502-family
CPU core).  Machine integers are modelled as `Nat` with explicit `% 256`
(u8 wrapping) and `% 65536` (u16 wrapping) where the source wraps.  The
backing memory array is `[u8; 0xFFFF]`, i.e. 65535 bytes: an index `addr`
is in bounds iff `addr < 0xFFFF`; a Rust panic (out-of-bounds index,
`panic!`, `expect` failure, `todo!`) is modelled as `Option.none` /
`StepOut.fail`.
-/

/-- The ten addressing-mode variants of the source enum `AddressingMode`. -/
inductive AddressingMode where
  | Immediate
  | ZeroPage
  | ZeroPage_X
  | ZeroPage_Y
  | Absolute
  | Absolute_X
  | Absolute_Y
  | Indirect_X
  | Indirect_Y
  | NoneAddressing
deriving DecidableEq, Repr

/-- The CPU register file and memory, mirroring `struct CPU`.
`memory` models the array `[u8; 0xFFFF]`; only indices `< 0xFFFF` are
meaningful, and stored values are bytes (`< 256`) in any state reachable
from the source API. -/
structure CPU where
  register_a : Nat
  register_x : Nat
  register_y : Nat
  status : Nat
  program_counter : Nat
  memory : Nat → Nat

namespace CPU

/-- Length of the backing array `[u8; 0xFFFF]` in the source: 65535 bytes. -/
def MEMSIZE : Nat := 0xFFFF

/-- `CPU::new()`: zeroed registers and zero-initialized memory. -/
def new : CPU :=
  { register_a := 0
    register_x := 0
    register_y := 0
    status := 0
    program_counter := 0
    memory := fun _ => 0 }

/-- `CPU::mem_read`: `self.memory[addr as usize]`.  The array has 65535
entries, so an index `addr ≥ 0xFFFF` is out of bounds (Rust panic → `none`). -/
def mem_read (c : CPU) (addr : Nat) : Option Nat :=
  if addr < MEMSIZE then some (c.memory addr) else none

/-- `CPU::mem_write`: `self.memory[addr as usize] = data`, same bound. -/
def mem_write (c : CPU) (addr data : Nat) : Option CPU :=
  if addr < MEMSIZE then
    some { c with memory := fun i => if i = addr then data else c.memory i }
  else none

/-- `CPU::mem_read_u16`: little-endian 16-bit read, low byte at `pos`,
high byte at `pos + 1`. -/
def mem_read_u16 (c : CPU) (pos : Nat) : Option Nat := do
  let lo ← mem_read c pos
  let hi ← mem_read c (pos + 1)
  pure ((hi <<< 8) ||| lo)

/-- `CPU::mem_write_u16`: store `data & 0xff` at `pos`, `data >> 8` at
`pos + 1`. -/
def mem_write_u16 (c : CPU) (pos data : Nat) : Option CPU := do
  let hi := (data >>> 8) % 256
  let lo := data &&& 0xff
  let c1 ← mem_write c pos lo
  mem_write c1 (pos + 1) hi

/-- `CPU::get_operand_address`.  `u8::wrapping_add` is `% 256`,
`u16::wrapping_add` is `% 65536`; the `NoneAddressing` arm is a `panic!`
(`none`). -/
def get_operand_address (c : CPU) (mode : AddressingMode) : Option Nat :=
  match mode with
  | .Immediate => some c.program_counter
  | .ZeroPage => mem_read c c.program_counter
  | .Absolute => mem_read_u16 c c.program_counter
  | .ZeroPage_X => do
      let pos ← mem_read c c.program_counter
      pure ((pos + c.register_x) % 256)
  | .ZeroPage_Y => do
      let pos ← mem_read c c.program_counter
      pure ((pos + c.register_y) % 256)
  | .Absolute_X => do
      let base ← mem_read_u16 c c.program_counter
      pure ((base + c.register_x) % 65536)
  | .Absolute_Y => do
      let base ← mem_read_u16 c c.program_counter
      pure ((base + c.register_y) % 65536)
  | .Indirect_X => do
      let base ← mem_read c c.program_counter
      let ptr := (base + c.register_x) % 256
      let lo ← mem_read c ptr
      let hi ← mem_read c ((ptr + 1) % 256)
      pure ((hi <<< 8) ||| lo)
  | .Indirect_Y => do
      let base ← mem_read c c.program_counter
      let lo ← mem_read c base
      let hi ← mem_read c ((base + 1) % 256)
      let deref_base := (hi <<< 8) ||| lo
      pure ((deref_base + c.register_y) % 65536)
  | .NoneAddressing => none

/-- `CPU::load`: copy the program into `memory[0x8000 ..]` (the slice
indexing panics when `0x8000 + program.len()` exceeds the 65535-byte
array), then write the reset vector `0x8000` little-endian at `0xFFFC`. -/
def load (c : CPU) (program : List Nat) : Option CPU :=
  if 0x8000 + program.length ≤ MEMSIZE then
    let c1 : CPU :=
      { c with memory := fun i =>
          if 0x8000 ≤ i ∧ i < 0x8000 + program.length then
            program.getD (i - 0x8000) 0
          else c.memory i }
    mem_write_u16 c1 0xFFFC 0x8000
  else none

/-- `CPU::reset`: zero A/X/Y/status, load the program counter from the
little-endian word at `0xFFFC`. -/
def reset (c : CPU) : Option CPU := do
  let pc ← mem_read_u16 c 0xFFFC
  pure { c with
           register_a := 0
           register_x := 0
           register_y := 0
           status := 0
           program_counter := pc }

/-- `CPU::get_value`: resolve the operand address, then read it. -/
def get_value (c : CPU) (mode : AddressingMode) : Option Nat := do
  let addr ← get_operand_address c mode
  mem_read c addr

/-- `CPU::update_zero_and_negative_flags` as a pure function of the status
byte and the result byte.  Zero flag is bit 1, Negative flag is bit 7. -/
def update_zero_and_negative_flags (status result : Nat) : Nat :=
  let s := if result = 0 then status ||| 0x02 else status &&& 0xFD
  if result &&& 0x80 ≠ 0 then s ||| 0x80 else s &&& 0x7F

/-- `CPU::write_reg`: store a register byte at the resolved address. -/
def write_reg (c : CPU) (mode : AddressingMode) (reg : Nat) : Option CPU := do
  let addr ← get_operand_address c mode
  mem_write c addr reg

/-- `CPU::add_to_reg_a`: the add-with-carry core.  `sum` is the u16 raw
sum; the carry branch subtracts 256 and sets/clears status bit 0; the
signed-overflow test `(value ^ sum8) & (sum8 ^ register_a) & 0x80` uses
the still-unmodified accumulator; then A is assigned and zero/negative
flags are updated from it. -/
def add_to_reg_a (c : CPU) (value : Nat) : CPU :=
  let sum := c.register_a + value
  let status1 := if sum > 0xFF then c.status ||| 0x01 else c.status &&& 0xFE
  let sum8 := if sum > 0xFF then sum - 256 else sum
  let status2 :=
    if (value ^^^ sum8) &&& (sum8 ^^^ c.register_a) &&& 0x80 ≠ 0 then
      status1 ||| 0x40
    else status1 &&& 0xBF
  { c with register_a := sum8
           status := update_zero_and_negative_flags status2 sum8 }

/-- `CPU::adc`: fetch the operand value, feed it to the add core. -/
def adc (c : CPU) (mode : AddressingMode) : Option CPU :=
  (get_value c mode).map fun value => add_to_reg_a c value

/-- Representation-level model of `(value as i8).wrapping_neg()`:
the i8 cast keeps the byte, and two's-complement wrapping negation of a
byte is `(256 - value) % 256`. -/
def wrapping_neg_u8 (value : Nat) : Nat := (256 - value % 256) % 256

/-- Representation-level model of i8 `wrapping_sub(1)` on a byte:
subtracting one modulo 256 is adding 255 modulo 256. -/
def wrapping_sub_one_u8 (value : Nat) : Nat := (value + 255) % 256

/-- `CPU::sbc`: add core applied to
`(value as i8).wrapping_neg().wrapping_sub(1) as u8`. -/
def sbc (c : CPU) (mode : AddressingMode) : Option CPU :=
  (get_value c mode).map fun value =>
    add_to_reg_a c (wrapping_sub_one_u8 (wrapping_neg_u8 value))

/-- `CPU::lda`. -/
def lda (c : CPU) (mode : AddressingMode) : Option CPU :=
  (get_value c mode).map fun value =>
    { c with register_a := value
             status := update_zero_and_negative_flags c.status value }

/-- `CPU::ldx`. -/
def ldx (c : CPU) (mode : AddressingMode) : Option CPU :=
  (get_value c mode).map fun value =>
    { c with register_x := value
             status := update_zero_and_negative_flags c.status value }

/-- `CPU::ldy`. -/
def ldy (c : CPU) (mode : AddressingMode) : Option CPU :=
  (get_value c mode).map fun value =>
    { c with register_y := value
             status := update_zero_and_negative_flags c.status value }

/-- `CPU::tax`: X ← A, flags from the transferred value. -/
def tax (c : CPU) : CPU :=
  { c with register_x := c.register_a
           status := update_zero_and_negative_flags c.status c.register_a }

/-- `CPU::txa`: A ← X, flags from `register_x` (the source register). -/
def txa (c : CPU) : CPU :=
  { c with register_a := c.register_x
           status := update_zero_and_negative_flags c.status c.register_x }

/-- `CPU::inx`: increment X with the explicit 255 → 0 wrap of the source. -/
def inx (c : CPU) : CPU :=
  let x := if c.register_x = 255 then 0 else c.register_x + 1
  { c with register_x := x
           status := update_zero_and_negative_flags c.status x }

/-- `CPU::dex`: decrement X with the explicit 0 → 255 wrap of the source. -/
def dex (c : CPU) : CPU :=
  let x := if c.register_x = 0 then 255 else c.register_x - 1
  { c with register_x := x
           status := update_zero_and_negative_flags c.status x }

/-- `CPU::tay`. -/
def tay (c : CPU) : CPU :=
  { c with register_y := c.register_a
           status := update_zero_and_negative_flags c.status c.register_a }

/-- `CPU::tya`: A ← Y, flags from `register_y` (the source register). -/
def tya (c : CPU) : CPU :=
  { c with register_a := c.register_y
           status := update_zero_and_negative_flags c.status c.register_y }

/-- `CPU::iny`. -/
def iny (c : CPU) : CPU :=
  let y := if c.register_y = 255 then 0 else c.register_y + 1
  { c with register_y := y
           status := update_zero_and_negative_flags c.status y }

/-- `CPU::dey`. -/
def dey (c : CPU) : CPU :=
  let y := if c.register_y = 0 then 255 else c.register_y - 1
  { c with register_y := y
           status := update_zero_and_negative_flags c.status y }

/-- `CPU::and`. -/
def and (c : CPU) (mode : AddressingMode) : Option CPU :=
  (get_value c mode).map fun value =>
    let a := c.register_a &&& value
    { c with register_a := a
             status := update_zero_and_negative_flags c.status a }

/-- `CPU::ora`. -/
def ora (c : CPU) (mode : AddressingMode) : Option CPU :=
  (get_value c mode).map fun value =>
    let a := c.register_a ||| value
    { c with register_a := a
             status := update_zero_and_negative_flags c.status a }

/-- `CPU::eor`. -/
def eor (c : CPU) (mode : AddressingMode) : Option CPU :=
  (get_value c mode).map fun value =>
    let a := c.register_a ^^^ value
    { c with register_a := a
             status := update_zero_and_negative_flags c.status a }

/-- Modelled from the spec: the opcode metadata table (`crate::opcodes`,
not under `src/`).  Per the spec an entry carries a byte length (1–3) and
an addressing mode; the table covers exactly the opcode values dispatched
by `run`'s match, with the standard 6502 mode for each value, and the byte
length determined by the mode (1 for implicit operands, 2 for
immediate/zero-page/indirect modes, 3 for absolute modes). -/
def opMeta (code : Nat) : Option (Nat × AddressingMode) :=
  match code with
  | 0x00 => some (1, .NoneAddressing)
  | 0xEA => some (1, .NoneAddressing)
  | 0x85 => some (2, .ZeroPage)
  | 0x95 => some (2, .ZeroPage_X)
  | 0x8D => some (3, .Absolute)
  | 0x9D => some (3, .Absolute_X)
  | 0x99 => some (3, .Absolute_Y)
  | 0x81 => some (2, .Indirect_X)
  | 0x91 => some (2, .Indirect_Y)
  | 0x86 => some (2, .ZeroPage)
  | 0x96 => some (2, .ZeroPage_Y)
  | 0x8E => some (3, .Absolute)
  | 0x84 => some (2, .ZeroPage)
  | 0x94 => some (2, .ZeroPage_X)
  | 0x8C => some (3, .Absolute)
  | 0xA9 => some (2, .Immediate)
  | 0xA5 => some (2, .ZeroPage)
  | 0xB5 => some (2, .ZeroPage_X)
  | 0xAD => some (3, .Absolute)
  | 0xBD => some (3, .Absolute_X)
  | 0xB9 => some (3, .Absolute_Y)
  | 0xA1 => some (2, .Indirect_X)
  | 0xB1 => some (2, .Indirect_Y)
  | 0xA2 => some (2, .Immediate)
  | 0xA6 => some (2, .ZeroPage)
  | 0xB6 => some (2, .ZeroPage_Y)
  | 0xAE => some (3, .Absolute)
  | 0xBE => some (3, .Absolute_Y)
  | 0xA0 => some (2, .Immediate)
  | 0xA4 => some (2, .ZeroPage)
  | 0xB4 => some (2, .ZeroPage_X)
  | 0xAC => some (3, .Absolute)
  | 0xBC => some (3, .Absolute_X)
  | 0xAA => some (1, .NoneAddressing)
  | 0x8A => some (1, .NoneAddressing)
  | 0xCA => some (1, .NoneAddressing)
  | 0xE8 => some (1, .NoneAddressing)
  | 0xA8 => some (1, .NoneAddressing)
  | 0x98 => some (1, .NoneAddressing)
  | 0x88 => some (1, .NoneAddressing)
  | 0xC8 => some (1, .NoneAddressing)
  | 0x29 => some (2, .Immediate)
  | 0x25 => some (2, .ZeroPage)
  | 0x35 => some (2, .ZeroPage_X)
  | 0x2D => some (3, .Absolute)
  | 0x3D => some (3, .Absolute_X)
  | 0x39 => some (3, .Absolute_Y)
  | 0x21 => some (2, .Indirect_X)
  | 0x31 => some (2, .Indirect_Y)
  | 0x49 => some (2, .Immediate)
  | 0x45 => some (2, .ZeroPage)
  | 0x55 => some (2, .ZeroPage_X)
  | 0x4D => some (3, .Absolute)
  | 0x5D => some (3, .Absolute_X)
  | 0x59 => some (3, .Absolute_Y)
  | 0x41 => some (2, .Indirect_X)
  | 0x51 => some (2, .Indirect_Y)
  | 0x09 => some (2, .Immediate)
  | 0x05 => some (2, .ZeroPage)
  | 0x15 => some (2, .ZeroPage_X)
  | 0x0D => some (3, .Absolute)
  | 0x1D => some (3, .Absolute_X)
  | 0x19 => some (3, .Absolute_Y)
  | 0x01 => some (2, .Indirect_X)
  | 0x11 => some (2, .Indirect_Y)
  | 0x69 => some (2, .Immediate)
  | 0x65 => some (2, .ZeroPage)
  | 0x75 => some (2, .ZeroPage_X)
  | 0x6D => some (3, .Absolute)
  | 0x7D => some (3, .Absolute_X)
  | 0x79 => some (3, .Absolute_Y)
  | 0x61 => some (2, .Indirect_X)
  | 0x71 => some (2, .Indirect_Y)
  | 0xE9 => some (2, .Immediate)
  | 0xE5 => some (2, .ZeroPage)
  | 0xF5 => some (2, .ZeroPage_X)
  | 0xED => some (3, .Absolute)
  | 0xFD => some (3, .Absolute_X)
  | 0xF9 => some (3, .Absolute_Y)
  | 0xE1 => some (2, .Indirect_X)
  | 0xF1 => some (2, .Indirect_Y)
  | _ => none

/-- Outcome of one dispatched opcode body inside `run`'s match:
a new state, the `0x00` arm's `return`, or a panic (`todo!`, resolver
panic, out-of-bounds memory). -/
inductive ExecOut where
  | ok (c : CPU)
  | brk
  | err

/-- Lift an `Option`-valued handler into `ExecOut`. -/
def liftEx (o : Option CPU) : ExecOut :=
  match o with
  | some c => .ok c
  | none => .err

/-- The opcode dispatch of `run`'s match statement, arm for arm. -/
def execOpcode (c : CPU) (code : Nat) (mode : AddressingMode) : ExecOut :=
  match code with
  | 0x85 | 0x95 | 0x8D | 0x9D | 0x99 | 0x81 | 0x91 =>
      liftEx (c.write_reg mode c.register_a)
  | 0x86 | 0x96 | 0x8E => liftEx (c.write_reg mode c.register_x)
  | 0x84 | 0x94 | 0x8C => liftEx (c.write_reg mode c.register_y)
  | 0xA9 | 0xA5 | 0xB5 | 0xAD | 0xBD | 0xB9 | 0xA1 | 0xB1 =>
      liftEx (c.lda mode)
  | 0xA2 | 0xA6 | 0xB6 | 0xAE | 0xBE => liftEx (c.ldx mode)
  | 0xA0 | 0xA4 | 0xB4 | 0xAC | 0xBC => liftEx (c.ldy mode)
  | 0xAA => .ok c.tax
  | 0x8A => .ok c.txa
  | 0xCA => .ok c.dex
  | 0xE8 => .ok c.inx
  | 0xA8 => .ok c.tay
  | 0x98 => .ok c.tya
  | 0x88 => .ok c.dey
  | 0xC8 => .ok c.iny
  | 0x29 | 0x25 | 0x35 | 0x2D | 0x3D | 0x39 | 0x21 | 0x31 =>
      liftEx (c.and mode)
  | 0x49 | 0x45 | 0x55 | 0x4D | 0x5D | 0x59 | 0x41 | 0x51 =>
      liftEx (c.eor mode)
  | 0x09 | 0x05 | 0x15 | 0x0D | 0x1D | 0x19 | 0x01 | 0x11 =>
      liftEx (c.ora mode)
  | 0x69 | 0x65 | 0x75 | 0x6D | 0x7D | 0x79 | 0x61 | 0x71 =>
      liftEx (c.adc mode)
  | 0xE9 | 0xE5 | 0xF5 | 0xED | 0xFD | 0xF9 | 0xE1 | 0xF1 =>
      liftEx (c.sbc mode)
  | 0xEA => .ok c
  | 0x00 => .brk
  | _ => .err

/-- Outcome of one iteration of `run`'s loop: the `0x00` `return`
(carrying the state handed back to the caller), a normal iteration, or a
panic. -/
inductive StepOut where
  | halt (c : CPU)
  | cont (c : CPU)
  | fail

/-- One iteration of `run`'s loop: fetch the opcode byte at the program
counter, advance the program counter by one, look the byte up in the
table (`expect` panic when absent), dispatch, and afterwards — iff the
handler left the program counter untouched — advance it by
`bytes - 1` (u16 wrapping, `% 65536`). -/
def step (c : CPU) : StepOut :=
  match CPU.mem_read c c.program_counter with
  | none => .fail
  | some code =>
    let c1 : CPU := { c with program_counter := c.program_counter + 1 }
    match opMeta code with
    | none => .fail
    | some meta =>
      match execOpcode c1 code meta.2 with
      | .err => .fail
      | .brk => .halt c1
      | .ok c2 =>
        if c1.program_counter = c2.program_counter then
          .cont { c2 with
                    program_counter := (c2.program_counter + (meta.1 - 1)) % 65536 }
        else .cont c2

/-- `run` with explicit fuel: iterate `step` at most `n` times; `some` is
the state handed back by the `0x00` `return` (or the state after `n`
iterations, so every intermediate state of `run` is a `runSteps` result),
`none` is a panic. -/
def runSteps : Nat → CPU → Option CPU
  | 0, c => some c
  | n + 1, c =>
    match step c with
    | .halt c' => some c'
    | .cont c' => runSteps n c'
    | .fail => none

/-- The memory function produced by `load`: the two reset-vector byte
stores layered over the program copy over the old memory. -/
def loadMemory (c : CPU) (program : List Nat) : Nat → Nat := fun i =>
  if i = 0xFFFC + 1 then (0x8000 >>> 8) % 256
  else if i = 0xFFFC then 0x8000 &&& 0xFF
  else if 0x8000 ≤ i ∧ i < 0x8000 + program.length then
    program.getD (i - 0x8000) 0
  else c.memory i

end CPU

/-- Concrete state for the C2 witness: accumulator `0xFF`. -/
def adcEx1 : CPU := { CPU.new with register_a := 0xFF }

/-- Concrete state for the C2 witness: accumulator `0x50`. -/
def adcEx2 : CPU := { CPU.new with register_a := 0x50 }

/-- Concrete state for the C3 witness: Immediate operand `0x05` at the
program counter. -/
def sbcEx : CPU :=
  { CPU.new with program_counter := 0x8000
                 memory := fun i => if i = 0x8000 then 0x05 else 0 }

/-- Memory for the C7 witness: zero-page pointer `0x40` at the program
counter, base `0x1234` little-endian at `0x40`/`0x41`. -/
def c7mem : Nat → Nat := fun i =>
  if i = 0x8000 then 0x40 else if i = 0x40 then 0x34 else
    if i = 0x41 then 0x12 else 0

/-- Concrete state for the C7 witness (Y = `0x10`). -/
def c7ex : CPU :=
  { CPU.new with program_counter := 0x8000
                 register_y := 0x10
                 memory := c7mem }

/-- Concrete state for the C8 witness: operand `0xFF`, X = `0x01`. -/
def c8ex : CPU :=
  { CPU.new with program_counter := 0x8000
                 register_x := 0x01
                 memory := fun i => if i = 0x8000 then 0xFF else 0 }

/-- A maximal-length loadable program: 32765 bytes of `0xAB`, whose image
spans `0x8000`–`0xFFFC`. -/
def prog9 : List Nat := List.replicate 0x7FFD 0xAB

/-- Concrete state for the C4 counterexample: nonzero accumulator, break
opcode (memory is all zero) at program counter `0x8000`. -/
def c4cex : CPU :=
  { CPU.new with register_a := 0x05
                 program_counter := 0x8000 }

/-- Memory for the first C5 witness instance: `0xE8` (single-byte INX)
at `0x8000`. -/
def c5mem1 : Nat → Nat := fun i => if i = 0x8000 then 0xE8 else 0

/-- Pre-state of the first C5 witness instance. -/
def c5ex1 : CPU := { CPU.new with program_counter := 0x8000
                                  memory := c5mem1 }

/-- Post-state of the first C5 witness instance: X incremented, program
counter advanced by exactly 1. -/
def c5out1 : CPU :=
  { CPU.new with register_x := 1
                 program_counter := 0x8001
                 memory := c5mem1 }

/-- Memory for the second C5 witness instance: `0xA9 0x05` (two-byte
Immediate-mode LDA) at `0x8000`. -/
def c5mem2 : Nat → Nat := fun i =>
  if i = 0x8000 then 0xA9 else if i = 0x8001 then 0x05 else 0

/-- Pre-state of the second C5 witness instance. -/
def c5ex2 : CPU := { CPU.new with program_counter := 0x8000
                                  memory := c5mem2 }

/-- Post-state of the second C5 witness instance: A loaded, program
counter advanced by exactly 2. -/
def c5out2 : CPU :=
  { CPU.new with register_a := 0x05
                 program_counter := 0x8002
                 memory := c5mem2 }

/-- Memory for the third C5 witness instance: `0xAD 0x10 0x00`
(three-byte Absolute-mode LDA of address `0x0010`) at `0x8000`. -/
def c5mem3 : Nat → Nat := fun i =>
  if i = 0x8000 then 0xAD else if i = 0x8001 then 0x10 else 0

/-- Pre-state of the third C5 witness instance. -/
def c5ex3 : CPU := { CPU.new with program_counter := 0x8000
                                  memory := c5mem3 }

/-- Post-state of the third C5 witness instance: A loaded with zero (Zero
flag set), program counter advanced by exactly 3. -/
def c5out3 : CPU :=
  { CPU.new with register_a := 0
                 status := 0x02
                 program_counter := 0x8003
                 memory := c5mem3 }

/-! ### Helper lemmas on status-bit arithmetic and the dispatch -/

namespace CPU

/-- A bit set in neither operand of `&&&` stays clear after an `|||`. -/
theorem testBit_of_and_eq_zero {m t : Nat} (hm : m &&& t = 0) (i : Nat) :
    (m.testBit i && t.testBit i) = false := by
  have hbit := congrArg (fun x => Nat.testBit x i) hm
  simpa [Nat.testBit_and] using hbit

/-- Setting bits disjoint from a mask does not change the masked value. -/
theorem mask_or (s m t : Nat) (hm : m &&& t = 0) : (s ||| m) &&& t = s &&& t := by
  refine Nat.eq_of_testBit_eq fun i => ?_
  have hz := testBit_of_and_eq_zero hm i
  simp only [Nat.testBit_and, Nat.testBit_or]
  cases hmm : Nat.testBit m i <;> cases ht : Nat.testBit t i <;> simp_all

/-- Clearing bits outside a mask does not change the masked value. -/
theorem mask_and (s m t : Nat) (hm : m &&& t = t) : (s &&& m) &&& t = s &&& t := by
  rw [Nat.and_assoc, hm]

/-- The source's negative-flag test `result & 0x80 != 0` is bit 7. -/
theorem and_ne_zero_iff_testBit (r : Nat) :
    (r &&& 0x80 ≠ 0) ↔ r.testBit 7 = true := by
  have h : r &&& 0x80 = (r.testBit 7).toNat * 0x80 := by
    have := Nat.and_two_pow r 7
    norm_num at this
    simpa using this
  rw [h]
  cases hr : r.testBit 7 <;> simp

/-- The flag-update routine leaves the Carry bit (bit 0) unchanged. -/
theorem uznf_testBit_0 (s r : Nat) :
    (update_zero_and_negative_flags s r).testBit 0 = s.testBit 0 := by
  unfold update_zero_and_negative_flags
  split <;> split <;>
    simp [Nat.testBit_or, Nat.testBit_and,
      (by decide : Nat.testBit 2 0 = false),
      (by decide : Nat.testBit 0x80 0 = false),
      (by decide : Nat.testBit 0xFD 0 = true),
      (by decide : Nat.testBit 0x7F 0 = true)]

/-- The flag-update routine leaves the Overflow bit (bit 6) unchanged. -/
theorem uznf_testBit_6 (s r : Nat) :
    (update_zero_and_negative_flags s r).testBit 6 = s.testBit 6 := by
  unfold update_zero_and_negative_flags
  split <;> split <;>
    simp [Nat.testBit_or, Nat.testBit_and,
      (by decide : Nat.testBit 2 6 = false),
      (by decide : Nat.testBit 0x80 6 = false),
      (by decide : Nat.testBit 0xFD 6 = true),
      (by decide : Nat.testBit 0x7F 6 = true)]

/-- The flag-update routine sets the Zero bit (bit 1) iff the result is 0. -/
theorem uznf_testBit_1 (s r : Nat) :
    (update_zero_and_negative_flags s r).testBit 1 = decide (r = 0) := by
  unfold update_zero_and_negative_flags
  split <;> split <;>
    simp_all [Nat.testBit_or, Nat.testBit_and,
      (by decide : Nat.testBit 2 1 = true),
      (by decide : Nat.testBit 0x80 1 = false),
      (by decide : Nat.testBit 0xFD 1 = false),
      (by decide : Nat.testBit 0x7F 1 = true)]

/-- The flag-update routine copies bit 7 of the result into the Negative
bit (bit 7) of the status. -/
theorem uznf_testBit_7 (s r : Nat) :
    (update_zero_and_negative_flags s r).testBit 7 = r.testBit 7 := by
  unfold update_zero_and_negative_flags
  by_cases h7 : r &&& 0x80 ≠ 0
  · have ht : r.testBit 7 = true := (and_ne_zero_iff_testBit r).1 h7
    simp [h7, Nat.testBit_or, ht, (by decide : Nat.testBit 0x80 7 = true)]
  · have ht : r.testBit 7 = false := by
      by_contra hc
      exact h7 ((and_ne_zero_iff_testBit r).2 (by simpa using hc))
    simp [h7, Nat.testBit_and, ht, (by decide : Nat.testBit 0x7F 7 = false)]

/-- The flag-update routine never touches status bits 2–5 (mask `0x3C`). -/
theorem uznf_mask_3C (s r : Nat) :
    (update_zero_and_negative_flags s r) &&& 0x3C = s &&& 0x3C := by
  unfold update_zero_and_negative_flags
  split <;> split <;>
    first
      | rw [mask_or _ _ _ (by decide), mask_or _ _ _ (by decide)]
      | rw [mask_or _ _ _ (by decide), mask_and _ _ _ (by decide)]
      | rw [mask_and _ _ _ (by decide), mask_or _ _ _ (by decide)]
      | rw [mask_and _ _ _ (by decide), mask_and _ _ _ (by decide)]

/-- The add-with-carry core never touches status bits 2–5. -/
theorem add_mask_3C (c : CPU) (v : Nat) :
    (add_to_reg_a c v).status &&& 0x3C = c.status &&& 0x3C := by
  unfold add_to_reg_a
  dsimp only
  rw [uznf_mask_3C]
  split <;> split <;>
    first
    | rw [mask_or _ _ _ (by decide), mask_or _ _ _ (by decide)]
    | rw [mask_or _ _ _ (by decide), mask_and _ _ _ (by decide)]
    | rw [mask_and _ _ _ (by decide), mask_or _ _ _ (by decide)]
    | rw [mask_and _ _ _ (by decide), mask_and _ _ _ (by decide)]

/-- A lifted handler result is `ok` exactly when the handler returned. -/
theorem liftEx_ok (o : Option CPU) (c2 : CPU) (h : liftEx o = .ok c2) :
    o = some c2 := by
  cases o with
  | none => exact ExecOut.noConfusion h
  | some c => cases h; rfl

/-- Store handlers change neither the program counter nor status bits 2–5. -/
theorem write_reg_inv (c : CPU) (mode : AddressingMode) (r : Nat) (c2 : CPU)
    (h : c.write_reg mode r = some c2) :
    c2.program_counter = c.program_counter ∧
      c2.status &&& 0x3C = c.status &&& 0x3C := by
  unfold write_reg at h
  cases ha : c.get_operand_address mode with
  | none => simp [ha] at h
  | some addr =>
    simp only [ha, Option.bind_eq_bind, Option.some_bind] at h
    unfold mem_write at h
    split at h
    · cases h; exact ⟨rfl, rfl⟩
    · cases h

set_option maxHeartbeats 8000000 in
/-- No dispatched handler of `run` modifies the program counter, and none
touches status bits 2–5. -/
theorem exec_ok_inv (c : CPU) (code : Nat) (mode : AddressingMode) (c2 : CPU)
    (h : execOpcode c code mode = .ok c2) :
    c2.program_counter = c.program_counter ∧
      c2.status &&& 0x3C = c.status &&& 0x3C := by
  unfold execOpcode at h
  split at h
  all_goals
    first
    | exact ExecOut.noConfusion h
    | (cases h; exact ⟨rfl, rfl⟩)
    | (cases h; exact ⟨rfl, uznf_mask_3C _ _⟩)
    | exact write_reg_inv _ _ _ _ (liftEx_ok _ _ h)
    | (obtain ⟨v, hv, rfl⟩ := Option.map_eq_some'.1 (liftEx_ok _ _ h)
       exact ⟨rfl, uznf_mask_3C _ _⟩)
    | (obtain ⟨v, hv, rfl⟩ := Option.map_eq_some'.1 (liftEx_ok _ _ h)
       exact ⟨rfl, add_mask_3C _ _⟩)

set_option maxHeartbeats 8000000 in
/-- Every opcode-table entry records a byte length of at least one. -/
theorem opMeta_bytes_pos (code : Nat) (p : Nat × AddressingMode)
    (h : opMeta code = some p) : 1 ≤ p.1 := by
  unfold opMeta at h
  split at h <;> (first | exact Option.noConfusion h | (cases h; decide))

/-- One loop iteration, whether it continues or halts, preserves status
bits 2–5. -/
theorem step_mask_aux (c c' : CPU)
    (h : step c = .cont c' ∨ step c = .halt c') :
    c'.status &&& 0x3C = c.status &&& 0x3C := by
  rcases h with h | h
  · unfold step at h
    split at h
    · exact StepOut.noConfusion h
    next code hcode =>
      split at h
      · exact StepOut.noConfusion h
      next meta hmeta =>
        dsimp only at h
        split at h
        · exact StepOut.noConfusion h
        · exact StepOut.noConfusion h
        next c2 hex =>
          split at h <;> cases h <;>
            simpa using (exec_ok_inv _ _ _ _ hex).2
  · unfold step at h
    split at h
    · exact StepOut.noConfusion h
    next code hcode =>
      split at h
      · exact StepOut.noConfusion h
      next meta hmeta =>
        dsimp only at h
        split at h
        · exact StepOut.noConfusion h
        · cases h; rfl
        next c2 hex =>
          split at h <;> exact StepOut.noConfusion h

/-- Status bits 2–5 stay clear along any prefix of `run`'s execution. -/
theorem runSteps_mask (n : Nat) :
    ∀ c c' : CPU, c.status &&& 0x3C = 0 → runSteps n c = some c' →
      c'.status &&& 0x3C = 0 := by
  induction n with
  | zero =>
    intro c c' h0 h
    cases h; exact h0
  | succ n ih =>
    intro c c' h0 h
    unfold runSteps at h
    cases hs : step c with
    | halt ch =>
      rw [hs] at h
      dsimp only at h
      cases h
      exact (step_mask_aux c _ (Or.inr hs)).trans h0
    | cont ch =>
      rw [hs] at h
      dsimp only at h
      exact ih ch c' ((step_mask_aux c ch (Or.inl hs)).trans h0) h
    | fail => rw [hs] at h; dsimp only at h; exact Option.noConfusion h

/-- A bounds-respecting read returns the stored byte. -/
theorem mem_read_eq (c : CPU) (addr : Nat) (h : addr < 0xFFFF) :
    mem_read c addr = some (c.memory addr) := by
  unfold mem_read MEMSIZE
  rw [if_pos h]

/-- Values fetched through `get_value` are bytes when memory holds bytes. -/
theorem get_value_lt (c : CPU) (mode : AddressingMode) (v : Nat)
    (hm : ∀ i, c.memory i < 256) (h : get_value c mode = some v) : v < 256 := by
  unfold get_value at h
  cases ha : get_operand_address c mode with
  | none => simp [ha] at h
  | some addr =>
    simp only [ha, Option.bind_eq_bind, Option.some_bind] at h
    unfold mem_read at h
    split at h
    · cases h; exact hm addr
    · cases h

theorem testBit_or_lit_false {m i : Nat} (h : m.testBit i = false) (s : Nat) :
    (s ||| m).testBit i = s.testBit i := by
  simp [Nat.testBit_or, h]

theorem testBit_and_lit_true {m i : Nat} (h : m.testBit i = true) (s : Nat) :
    (s &&& m).testBit i = s.testBit i := by
  simp [Nat.testBit_and, h]

/-- Computation of `load` on any state: the guarded slice copy followed by
the two reset-vector byte stores. -/
theorem load_eq (c : CPU) (program : List Nat)
    (h : 0x8000 + program.length ≤ 0xFFFF) :
    CPU.load c program = some { c with memory := loadMemory c program } := by
  unfold CPU.load CPU.mem_write_u16 CPU.mem_write CPU.MEMSIZE
  rw [if_pos h]
  simp only [Option.bind_eq_bind, Option.some_bind]
  rw [if_pos (by norm_num : (0xFFFC : Nat) < 0xFFFF)]
  simp only [Option.some_bind]
  rw [if_pos (by norm_num : (0xFFFC + 1 : Nat) < 0xFFFF)]
  rfl

/-- Computation of `reset` on any state: registers zeroed, program
counter composed little-endian from the bytes at `0xFFFC`/`0xFFFD`. -/
theorem reset_eq (c : CPU) :
    CPU.reset c = some
      { c with
          register_a := 0
          register_x := 0
          register_y := 0
          status := 0
          program_counter := c.memory (0xFFFC + 1) <<< 8 ||| c.memory 0xFFFC } := by
  unfold CPU.reset CPU.mem_read_u16
  rw [CPU.mem_read_eq _ _ (by norm_num : (0xFFFC : Nat) < 0xFFFF)]
  simp only [Option.bind_eq_bind, Option.some_bind]
  rw [CPU.mem_read_eq _ _ (by norm_num : (0xFFFC + 1 : Nat) < 0xFFFF)]
  simp only [Option.some_bind]
  rfl

end CPU

/-! ### Claims -/

/-- Claim C1 counterexample: the 16-bit address `0xFFFF` indexes past the
65535-byte backing array, so `mem_read` fails (panics) there instead of
returning a byte. -/
theorem claim1_counterexample : CPU.mem_read CPU.new 0xFFFF = none := rfl

/-- Claim C1 (amended): for every address strictly below 65535, `mem_read`
returns the stored byte and `mem_write` stores its byte (read back by a
subsequent `mem_read`); the remaining 16-bit address `0xFFFF` is out of
range of the 65535-byte backing array and both operations fail there. -/
theorem claim1_mem_read_write (c : CPU) (addr data : Nat) (h : addr < 0xFFFF) :
    CPU.mem_read c addr = some (c.memory addr) ∧
    CPU.mem_write c addr data =
      some { c with memory := fun i => if i = addr then data else c.memory i } ∧
    (CPU.mem_write c addr data).bind (fun c' => CPU.mem_read c' addr) =
      some data := by
  refine ⟨CPU.mem_read_eq c addr h, ?_, ?_⟩
  · unfold CPU.mem_write CPU.MEMSIZE
    rw [if_pos h]
  · unfold CPU.mem_write CPU.MEMSIZE
    rw [if_pos h]
    simp only [Option.some_bind]
    rw [CPU.mem_read_eq _ addr h]
    simp

/-- Claim C1 witness at address `0x1234`, data `0x42`. -/
theorem claim1_witness :
    (0x1234 : Nat) < 0xFFFF ∧
    (CPU.mem_read CPU.new 0x1234 = some (CPU.new.memory 0x1234) ∧
     CPU.mem_write CPU.new 0x1234 0x42 =
       some { CPU.new with
                memory := fun i => if i = 0x1234 then 0x42 else CPU.new.memory i } ∧
     (CPU.mem_write CPU.new 0x1234 0x42).bind
       (fun c' => CPU.mem_read c' 0x1234) = some 0x42) :=
  ⟨by decide, claim1_mem_read_write CPU.new 0x1234 0x42 (by decide)⟩

/-- Claim C2: for every prior accumulator byte, status byte and operand
byte, the add-with-carry core sets A to `(A_before + value) % 256`
independently of the incoming carry flag, sets the Carry flag (bit 0) iff
the raw sum exceeds 255, sets the Overflow flag (bit 6) iff
`(value ^ result) & (result ^ A_before) & 0x80` is nonzero, and updates
the Zero (bit 1) and Negative (bit 7) flags from the result. -/
theorem claim2_add_with_carry (c : CPU) (v : Nat)
    (ha : c.register_a < 256) (hv : v < 256) :
    (CPU.add_to_reg_a c v).register_a = (c.register_a + v) % 256 ∧
    (CPU.add_to_reg_a c v).status.testBit 0 =
      decide (255 < c.register_a + v) ∧
    (CPU.add_to_reg_a c v).status.testBit 6 =
      decide ((v ^^^ (c.register_a + v) % 256) &&&
        ((c.register_a + v) % 256 ^^^ c.register_a) &&& 0x80 ≠ 0) ∧
    (CPU.add_to_reg_a c v).status.testBit 1 =
      decide ((c.register_a + v) % 256 = 0) ∧
    (CPU.add_to_reg_a c v).status.testBit 7 =
      ((c.register_a + v) % 256).testBit 7 := by
  have hr : (if c.register_a + v > 0xFF then c.register_a + v - 256
             else c.register_a + v) = (c.register_a + v) % 256 := by
    split <;> omega
  unfold CPU.add_to_reg_a
  dsimp only
  rw [hr]
  refine ⟨rfl, ?_, ?_, CPU.uznf_testBit_1 _ _, CPU.uznf_testBit_7 _ _⟩
  · rw [CPU.uznf_testBit_0]
    split
    · rw [CPU.testBit_or_lit_false (by decide)]
      split
      next hc => simp [Nat.testBit_or, hc, (by decide : Nat.testBit 1 0 = true)]
      next hc => simp [Nat.testBit_and, hc,
        (by decide : Nat.testBit 0xFE 0 = false)]
    · rw [CPU.testBit_and_lit_true (by decide)]
      split
      next hc => simp [Nat.testBit_or, hc, (by decide : Nat.testBit 1 0 = true)]
      next hc => simp [Nat.testBit_and, hc,
        (by decide : Nat.testBit 0xFE 0 = false)]
  · rw [CPU.uznf_testBit_6]
    split
    next hov => simp [Nat.testBit_or, hov,
      (by decide : Nat.testBit 0x40 6 = true)]
    next hov => simp [Nat.testBit_and, hov,
      (by decide : Nat.testBit 0xBF 6 = false)]

/-- Claim C2 witness: the carry boundary `0xFF + 0x01` (result `0x00`,
Carry set, Zero set, Negative clear) instantiates the theorem, and the
overflow boundary `0x50 + 0x50` (result `0xA0`, Carry clear, Overflow
set) is checked concretely. -/
theorem claim2_witness :
    ((CPU.add_to_reg_a adcEx1 0x01).register_a =
        (adcEx1.register_a + 0x01) % 256 ∧
     (CPU.add_to_reg_a adcEx1 0x01).status.testBit 0 =
        decide (255 < adcEx1.register_a + 0x01) ∧
     (CPU.add_to_reg_a adcEx1 0x01).status.testBit 6 =
        decide ((0x01 ^^^ (adcEx1.register_a + 0x01) % 256) &&&
          ((adcEx1.register_a + 0x01) % 256 ^^^ adcEx1.register_a) &&&
          0x80 ≠ 0) ∧
     (CPU.add_to_reg_a adcEx1 0x01).status.testBit 1 =
        decide ((adcEx1.register_a + 0x01) % 256 = 0) ∧
     (CPU.add_to_reg_a adcEx1 0x01).status.testBit 7 =
        ((adcEx1.register_a + 0x01) % 256).testBit 7) ∧
    ((CPU.add_to_reg_a adcEx1 0x01).register_a = 0x00 ∧
     (CPU.add_to_reg_a adcEx1 0x01).status.testBit 0 = true ∧
     (CPU.add_to_reg_a adcEx1 0x01).status.testBit 1 = true ∧
     (CPU.add_to_reg_a adcEx1 0x01).status.testBit 7 = false) ∧
    ((CPU.add_to_reg_a adcEx2 0x50).register_a = 0xA0 ∧
     (CPU.add_to_reg_a adcEx2 0x50).status.testBit 0 = false ∧
     (CPU.add_to_reg_a adcEx2 0x50).status.testBit 6 = true) :=
  ⟨claim2_add_with_carry adcEx1 0x01 (by decide) (by decide),
   ⟨by decide, by decide, by decide, by decide⟩,
   ⟨by decide, by decide, by decide⟩⟩

/-- Claim C3: for every CPU state with byte-valued memory and every
addressing mode, the subtract-with-carry handler coincides with the
add-with-carry core applied to `(-(value) - 1) mod 256`, the
two's-complement negation of the operand minus one — hence identical
accumulator, carry, overflow, zero and negative outcomes. -/
theorem claim3_sbc_refinement (c : CPU) (mode : AddressingMode)
    (hm : ∀ i, c.memory i < 256) :
    CPU.sbc c mode = (CPU.get_value c mode).map
      (fun value : Nat => CPU.add_to_reg_a c (((-(value : Int) - 1) % 256).toNat)) := by
  unfold CPU.sbc
  cases hv : CPU.get_value c mode with
  | none => simp
  | some v =>
    have hvlt : v < 256 := CPU.get_value_lt c mode v hm hv
    simp only [Option.map_some']
    have harg : CPU.wrapping_sub_one_u8 (CPU.wrapping_neg_u8 v) =
        ((-(v : Int) - 1) % 256).toNat := by
      unfold CPU.wrapping_sub_one_u8 CPU.wrapping_neg_u8
      omega
    rw [harg]

/-- Claim C3 witness: Immediate-mode subtract on operand `0x05` from a
concrete state, with the operand transform evaluated concretely. -/
theorem claim3_witness :
    CPU.sbc sbcEx .Immediate = (CPU.get_value sbcEx .Immediate).map
      (fun value : Nat => CPU.add_to_reg_a sbcEx (((-(value : Int) - 1) % 256).toNat)) ∧
    CPU.sbc sbcEx .Immediate = some (CPU.add_to_reg_a sbcEx 0xFA) :=
  ⟨claim3_sbc_refinement sbcEx .Immediate
     (by intro i
         show (if i = 0x8000 then 0x05 else 0) < 256
         split <;> decide),
   by rfl⟩

/-- Claim C6: for every status byte and result byte, the shared flag
routine sets the Zero flag (bit 1) iff the result is `0x00`, copies bit 7
of the result into the Negative flag (bit 7), and leaves the Carry
(bit 0) and Overflow (bit 6) flags unchanged. -/
theorem claim6_zero_negative_flags (status result : Nat) :
    (CPU.update_zero_and_negative_flags status result).testBit 1 =
      decide (result = 0) ∧
    (CPU.update_zero_and_negative_flags status result).testBit 7 =
      result.testBit 7 ∧
    (CPU.update_zero_and_negative_flags status result).testBit 0 =
      status.testBit 0 ∧
    (CPU.update_zero_and_negative_flags status result).testBit 6 =
      status.testBit 6 :=
  ⟨CPU.uznf_testBit_1 status result, CPU.uznf_testBit_7 status result,
   CPU.uznf_testBit_0 status result, CPU.uznf_testBit_6 status result⟩

/-- Claim C7: for every byte-valued memory, in-range program counter and
Y register, the Indirect-Y resolver reads the zero-page pointer byte at
the program counter (no X offset), dereferences `memory[p]` (low) and
`memory[(p + 1) % 256]` (high) — the pointer increment wrapping at 8
bits — and returns the dereferenced base plus Y modulo 65536. -/
theorem claim7_indirect_y (c : CPU) (hm : ∀ i, c.memory i < 256)
    (hpc : c.program_counter < 0xFFFF) :
    CPU.get_operand_address c .Indirect_Y =
      some (((c.memory ((c.memory c.program_counter + 1) % 256) <<< 8 |||
              c.memory (c.memory c.program_counter)) + c.register_y) % 65536) := by
  unfold CPU.get_operand_address
  rw [CPU.mem_read_eq c _ hpc]
  simp only [Option.bind_eq_bind, Option.some_bind]
  rw [CPU.mem_read_eq c _ (by have := hm c.program_counter; omega)]
  simp only [Option.some_bind]
  rw [CPU.mem_read_eq c _ (by omega)]
  simp only [Option.some_bind]
  rfl

/-- Claim C7 witness: zero-page pointer `0x40` holding base `0x1234` with
Y = `0x10` resolves to `0x1244`, and a byte written at the resolved
address is returned by a subsequent Indirect-Y load from the same setup. -/
theorem claim7_witness :
    CPU.get_operand_address c7ex .Indirect_Y = some 0x1244 ∧
    (CPU.mem_write c7ex 0x1244 0x77).bind
      (fun c2 => CPU.get_value c2 .Indirect_Y) = some 0x77 := by
  constructor
  · rw [claim7_indirect_y c7ex
      (by intro i
          show (if i = 0x8000 then 0x40 else if i = 0x40 then 0x34 else
            if i = 0x41 then 0x12 else 0) < 256
          split <;> [decide; (split <;> [decide; (split <;> decide)])])
      (by decide)]
    decide
  · decide

/-- Claim C8: indexed addressing wraps at the mode's width — ZeroPage-X
and ZeroPage-Y resolve to `(operand + X or Y) % 256` (zero-extended), and
Absolute-X and Absolute-Y resolve to `(little-endian base + X or Y)
% 65536`. -/
theorem claim8_indexed_wraparound (c : CPU)
    (hpc : c.program_counter + 1 < 0xFFFF) :
    CPU.get_operand_address c .ZeroPage_X =
      some ((c.memory c.program_counter + c.register_x) % 256) ∧
    CPU.get_operand_address c .ZeroPage_Y =
      some ((c.memory c.program_counter + c.register_y) % 256) ∧
    CPU.get_operand_address c .Absolute_X =
      some (((c.memory (c.program_counter + 1) <<< 8 |||
              c.memory c.program_counter) + c.register_x) % 65536) ∧
    CPU.get_operand_address c .Absolute_Y =
      some (((c.memory (c.program_counter + 1) <<< 8 |||
              c.memory c.program_counter) + c.register_y) % 65536) := by
  have hpc0 : c.program_counter < 0xFFFF := by omega
  have habs : CPU.mem_read_u16 c c.program_counter =
      some (c.memory (c.program_counter + 1) <<< 8 ||| c.memory c.program_counter) := by
    unfold CPU.mem_read_u16
    rw [CPU.mem_read_eq c _ hpc0]
    simp only [Option.bind_eq_bind, Option.some_bind]
    rw [CPU.mem_read_eq c _ hpc]
    simp only [Option.some_bind]
    rfl
  refine ⟨?_, ?_, ?_, ?_⟩ <;>
    unfold CPU.get_operand_address
  · rw [CPU.mem_read_eq c _ hpc0]; rfl
  · rw [CPU.mem_read_eq c _ hpc0]; rfl
  · rw [habs]; rfl
  · rw [habs]; rfl

/-- Claim C8 witness: ZeroPage-X with operand `0xFF` and X = `0x01`
resolves to `0x0000`, not `0x0100`. -/
theorem claim8_witness :
    CPU.get_operand_address c8ex .ZeroPage_X = some 0x0000 ∧
    CPU.get_operand_address c8ex .Absolute_X = some 0x0100 := by
  constructor
  · rw [(claim8_indexed_wraparound c8ex (by decide)).1]
    decide
  · decide

/-- Claim C9 (amended): for every program that stays strictly below the
reset vector (`0x8000 + length ≤ 0xFFFC`), `load` then `reset` succeeds
and yields a state whose memory holds the program image at `0x8000`, the
little-endian base `0x00`/`0x80` at `0xFFFC`/`0xFFFD`, zeroed A/X/Y/
status, and program counter `0x8000`.  (A longer — still loadable —
program is clipped by the subsequent reset-vector write at
`0xFFFC`/`0xFFFD`; see the counterexample.) -/
theorem claim9_load_reset (c : CPU) (program : List Nat)
    (h : 0x8000 + program.length ≤ 0xFFFC) :
    ∃ c2, (CPU.load c program).bind CPU.reset = some c2 ∧
      (∀ i, i < program.length → c2.memory (0x8000 + i) = program.getD i 0) ∧
      c2.memory 0xFFFC = 0x00 ∧ c2.memory 0xFFFD = 0x80 ∧
      c2.register_a = 0 ∧ c2.register_x = 0 ∧ c2.register_y = 0 ∧
      c2.status = 0 ∧ c2.program_counter = 0x8000 := by
  rw [CPU.load_eq c program (by omega)]
  simp only [Option.some_bind]
  rw [CPU.reset_eq]
  refine ⟨_, rfl, ?_, ?_, ?_, rfl, rfl, rfl, rfl, ?_⟩
  · intro i hi
    show CPU.loadMemory c program (0x8000 + i) = program.getD i 0
    unfold CPU.loadMemory
    rw [if_neg (by omega : ¬ (0x8000 + i = 0xFFFC + 1)),
        if_neg (by omega : ¬ (0x8000 + i = 0xFFFC)),
        if_pos (⟨by omega, by omega⟩ :
          0x8000 ≤ 0x8000 + i ∧ 0x8000 + i < 0x8000 + program.length)]
    have hsub : 0x8000 + i - 0x8000 = i := by omega
    rw [hsub]
  · show CPU.loadMemory c program 0xFFFC = 0x00
    unfold CPU.loadMemory
    rw [if_neg (by omega : ¬ ((0xFFFC : Nat) = 0xFFFC + 1)),
        if_pos (rfl : (0xFFFC : Nat) = 0xFFFC)]
    decide
  · show CPU.loadMemory c program 0xFFFD = 0x80
    unfold CPU.loadMemory
    rw [if_pos (by norm_num : (0xFFFD : Nat) = 0xFFFC + 1)]
    decide
  · show CPU.loadMemory c program (0xFFFC + 1) <<< 8 |||
      CPU.loadMemory c program 0xFFFC = 0x8000
    unfold CPU.loadMemory
    rw [if_pos (rfl : (0xFFFC + 1 : Nat) = 0xFFFC + 1),
        if_neg (by omega : ¬ ((0xFFFC : Nat) = 0xFFFC + 1)),
        if_pos (rfl : (0xFFFC : Nat) = 0xFFFC)]
    decide

/-- Claim C9 counterexample: `prog9` fits below the end of memory
(`0x8000 + 0x7FFD = 0xFFFD ≤ 0xFFFF`), yet after `load` + `reset` the byte
at `0x8000 + 0x7FFC = 0xFFFC` is `0x00` — the reset-vector write — while
`prog9[0x7FFC] = 0xAB`, so memory does not hold the program image at every
index. -/
theorem claim9_counterexample :
    ((CPU.load CPU.new prog9).bind CPU.reset).map
        (fun c2 => c2.memory 0xFFFC) = some 0x00 ∧
    prog9.getD 0x7FFC 0 = 0xAB ∧
    (0x8000 + 0x7FFC : Nat) = 0xFFFC ∧ (0x00 : Nat) ≠ 0xAB := by
  refine ⟨?_, ?_, by norm_num, by norm_num⟩
  · rw [CPU.load_eq CPU.new prog9
      (by rw [show prog9 = List.replicate 0x7FFD 0xAB from rfl,
              List.length_replicate]
          norm_num)]
    simp only [Option.some_bind]
    rw [CPU.reset_eq]
    simp only [Option.map_some']
    show some (CPU.loadMemory CPU.new prog9 0xFFFC) = some 0x00
    unfold CPU.loadMemory
    rw [if_neg (by omega : ¬ ((0xFFFC : Nat) = 0xFFFC + 1)),
        if_pos (rfl : (0xFFFC : Nat) = 0xFFFC)]
    decide
  · show (List.replicate 0x7FFD (0xAB : Nat)).getD 0x7FFC 0 = 0xAB
    rw [List.getD_eq_getElem?_getD, List.getElem?_replicate,
        if_pos (by norm_num : (0x7FFC : Nat) < 0x7FFD)]
    rfl

/-- Claim C9 witness: the three-byte program `[0xA9, 0x05, 0x00]`. -/
theorem claim9_witness :
    ∃ c2, (CPU.load CPU.new [0xA9, 0x05, 0x00]).bind CPU.reset = some c2 ∧
      (∀ i, i < [0xA9, 0x05, 0x00].length →
        c2.memory (0x8000 + i) = [0xA9, 0x05, 0x00].getD i 0) ∧
      c2.memory 0xFFFC = 0x00 ∧ c2.memory 0xFFFD = 0x80 ∧
      c2.register_a = 0 ∧ c2.register_x = 0 ∧ c2.register_y = 0 ∧
      c2.status = 0 ∧ c2.program_counter = 0x8000 :=
  claim9_load_reset CPU.new [0xA9, 0x05, 0x00] (by norm_num)

/-- Claim C4 counterexample: decoding the break opcode from program
counter `0x8000` (no prior instruction has run) returns with the program
counter at `0x8001`, so the program counter does not keep its pre-fetch
value — the fetch of the break opcode itself advanced it by one. -/
theorem claim4_counterexample :
    CPU.step c4cex = .halt { c4cex with program_counter := 0x8001 } ∧
    c4cex.program_counter = 0x8000 ∧ (0x8001 : Nat) ≠ 0x8000 :=
  ⟨rfl, rfl, by decide⟩

set_option maxHeartbeats 1600000 in
/-- Claim C4 (amended): whenever `run` fetches the break opcode `0x00`,
it returns control to the caller immediately: the accumulator, X, Y,
status and every memory byte are left untouched, and the program counter
is advanced exactly once — by the opcode fetch that precedes decoding —
ending at its pre-fetch value plus one. -/
theorem claim4_break_halts (c : CPU)
    (h : CPU.mem_read c c.program_counter = some 0x00) :
    CPU.step c = .halt { c with program_counter := c.program_counter + 1 } := by
  unfold CPU.step
  rw [h]
  rfl

set_option maxHeartbeats 1600000 in
/-- Claim C4 witness: the freshly constructed CPU (memory all zero)
decodes the break opcode and halts in one step. -/
theorem claim4_witness :
    CPU.step CPU.new =
      .halt { CPU.new with program_counter := CPU.new.program_counter + 1 } :=
  claim4_break_halts CPU.new rfl

/-- Claim C5: whenever a fetch-decode-execute step of `run` continues
(i.e. the decoded opcode is in-scope and is not the break opcode), the
program counter after the step equals its pre-fetch value plus the
opcode's metadata byte length — the handlers never modify the program
counter, so the conditional advancement by `bytes - 1` always fires on
top of the one-byte opcode fetch. -/
theorem claim5_pc_advance (c c' : CPU) (code bytes : Nat)
    (mode : AddressingMode)
    (hcode : CPU.mem_read c c.program_counter = some code)
    (hmeta : CPU.opMeta code = some (bytes, mode))
    (hlt : c.program_counter + bytes < 65536)
    (h : CPU.step c = .cont c') :
    c'.program_counter = c.program_counter + bytes := by
  have hb : 1 ≤ bytes := CPU.opMeta_bytes_pos code (bytes, mode) hmeta
  unfold CPU.step at h
  rw [hcode] at h
  dsimp only at h
  rw [hmeta] at h
  dsimp only at h
  cases hex : CPU.execOpcode { c with program_counter := c.program_counter + 1 }
      code mode with
  | err => rw [hex] at h; exact CPU.StepOut.noConfusion h
  | brk => rw [hex] at h; exact CPU.StepOut.noConfusion h
  | ok c2 =>
    rw [hex] at h
    dsimp only at h
    have hpc := (CPU.exec_ok_inv _ _ _ _ hex).1
    dsimp only at hpc
    rw [if_pos hpc.symm] at h
    cases h
    try dsimp only
    rw [hpc]
    omega

set_option maxHeartbeats 4000000 in
/-- Claim C5 witness: the single-byte `0xE8` advances the program counter
by exactly 1, the two-byte Immediate-mode `0xA9` by exactly 2, and the
three-byte Absolute-mode `0xAD` by exactly 3. -/
theorem claim5_witness :
    c5out1.program_counter = c5ex1.program_counter + 1 ∧
    c5out2.program_counter = c5ex2.program_counter + 2 ∧
    c5out3.program_counter = c5ex3.program_counter + 3 :=
  ⟨claim5_pc_advance c5ex1 c5out1 0xE8 1 .NoneAddressing rfl rfl
     (by decide) rfl,
   claim5_pc_advance c5ex2 c5out2 0xA9 2 .Immediate rfl rfl
     (by decide) rfl,
   claim5_pc_advance c5ex3 c5out3 0xAD 3 .Absolute rfl rfl
     (by decide) rfl⟩

/-- Claim C10: every continuing or halting step of `run` preserves status
bits 2–5 (mask `0b0011_1100`); consequently along any execution prefix of
`run` those bits stay 0 once they are 0; and both `new()` and `reset()`
produce a zeroed status, so bits 2–5 remain 0 throughout any execution
started from them. -/
theorem claim10_status_bits :
    (∀ c c' : CPU, (CPU.step c = .cont c' ∨ CPU.step c = .halt c') →
      c'.status &&& 0x3C = c.status &&& 0x3C) ∧
    (∀ (n : Nat) (c c' : CPU), c.status &&& 0x3C = 0 →
      CPU.runSteps n c = some c' → c'.status &&& 0x3C = 0) ∧
    CPU.new.status = 0 ∧
    (∀ c c' : CPU, CPU.reset c = some c' → c'.status = 0) :=
  ⟨fun c c' h => CPU.step_mask_aux c c' h,
   fun n c c' h0 h => CPU.runSteps_mask n c c' h0 h,
   rfl,
   fun c c' h => by rw [CPU.reset_eq] at h; cases h; rfl⟩

set_option maxHeartbeats 1600000 in
/-- Claim C10 witness: one full run of the trivial break program from the
freshly constructed CPU keeps status bits 2–5 at zero. -/
theorem claim10_witness :
    CPU.runSteps 1 CPU.new = some { CPU.new with program_counter := 1 } ∧
    ({ CPU.new with program_counter := 1 } : CPU).status &&& 0x3C = 0 :=
  ⟨rfl, claim10_status_bits.2.1 1 CPU.new
    { CPU.new with program_counter := 1 } rfl rfl⟩
